import Mathlib

/-!
Shallow embedding of the monkeylang2 front end (token model and Pratt parser)
together with theorems checking the specification's claims against it.

The token constants and `LookupIdent` are translated from the repository's
token source file; the parser functions are translated from
`parser/parser.go`.  The repository does not ship the lexer and ast
packages (only their callers), so those are modelled from the spec and
marked as such.  Debug `fmt.Printf` calls in the Go parser write to stdout
only and touch no parser state; they are not modelled.
-/

namespace token

/-- Go: `type TokenType string`. -/
abbrev TokenType := String

/-- Go: `type Token struct { Type TokenType; Literal string }`.
The `Type` field is renamed `typ` because `Type` is reserved in Lean. -/
structure Token where
  typ : TokenType
  Literal : String
deriving DecidableEq

/-- Go: `ILLEGAL = "ILLEGAL"`. -/
def ILLEGAL : TokenType := "ILLEGAL"

/-- Go: `EOF = "INT"` — translated exactly as written in the source, where the
end-of-input constant is defined with the string literal `"INT"`. -/
def EOF : TokenType := "INT"

/-- Go: `IDENT = "IDENT"`. -/
def IDENT : TokenType := "IDENT"

/-- Go: `INT = "INT"`. -/
def INT : TokenType := "INT"

/-- Go: `ASSIGN = "="`. -/
def ASSIGN : TokenType := "="

/-- Go: `PLUS = "+"`. -/
def PLUS : TokenType := "+"

/-- Go: `COMMA = ","`. -/
def COMMA : TokenType := ","

/-- Go: `SEMICOLON = ";"`. -/
def SEMICOLON : TokenType := ";"

/-- Go: `LPAREN = "("`. -/
def LPAREN : TokenType := "("

/-- Go: `RPAREN = ")"`. -/
def RPAREN : TokenType := ")"

/-- Go: `LBRACE` is the opening-brace character. -/
def LBRACE : TokenType := "\x7b"

/-- Go: `RBRACE` is the closing-brace character. -/
def RBRACE : TokenType := "\x7d"

/-- Go: `FUNCTION = "FUNCTION"`. -/
def FUNCTION : TokenType := "FUNCTION"

/-- Go: `LET = "LET"`. -/
def LET : TokenType := "LET"

/-- Modelled from the spec: the parser dispatches on `token.RETURN`, but the
repository's token source file defines no `RETURN` constant (its constant
block ends at `LET`); the spec lists `return` among the keyword kinds the
token model extends to.  Modelled as its own distinct kind string. -/
def RETURN : TokenType := "RETURN"

/-- Go: the `keywords` map, containing exactly the entries written in the
source: `"fn"` and `"let"` (note: no `"return"` entry exists). -/
def keywords : List (String × TokenType) := [("fn", FUNCTION), ("let", LET)]

/-- Go: `LookupIdent` — return the keyword kind if `ident` is a reserved
word, otherwise `IDENT`. -/
def LookupIdent (ident : String) : TokenType :=
  match keywords.lookup ident with
  | some tok => tok
  | none => IDENT

/-- The token produced by the (spec-modelled) Lexer at end of input, and
returned again on every pull past the end of the stream. -/
def eofTok : Token := ⟨EOF, ""⟩

/-- Modelled from the spec: letter classification used by the missing lexer
package ("classifies runs of letters as identifiers"). -/
def isLetterCh (c : Char) : Bool := c.isAlpha

/-- Modelled from the spec: the single-character operator/delimiter table of
the missing lexer package; unrecognized characters yield `ILLEGAL`. -/
def charTokenType (c : Char) : TokenType :=
  if c = '=' then ASSIGN
  else if c = '+' then PLUS
  else if c = ',' then COMMA
  else if c = ';' then SEMICOLON
  else if c = '(' then LPAREN
  else if c = ')' then RPAREN
  else if c = '\x7b' then LBRACE
  else if c = '\x7d' then RBRACE
  else ILLEGAL

/-- Dropping a prefix of elements satisfying `p` never lengthens a list
(helper for the lexer's termination argument). -/
theorem dropWhile_length_le {α : Type} (p : α → Bool) :
    (l : List α) → (l.dropWhile p).length ≤ l.length
  | [] => le_refl _
  | a :: t => by
    rw [List.dropWhile_cons]
    split
    · exact le_trans (dropWhile_length_le p t) (Nat.le_succ _)
    · exact le_refl _

/-- Modelled from the spec: the Lexer component (the lexer package is not in
the repository sources; only the parser that calls it is).  Per the spec it
skips whitespace, turns runs of letters into identifier/keyword tokens via
`LookupIdent`, turns runs of digits into `INT` tokens, maps single
characters through the operator/delimiter table, and ends the stream with
exactly one end-of-input token whose literal is empty. -/
def lexChars (cs : List Char) : List Token :=
  match cs with
  | [] => [eofTok]
  | c :: rest =>
    if c.isWhitespace then lexChars rest
    else if isLetterCh c then
      let word := String.mk (c :: rest.takeWhile isLetterCh)
      ⟨LookupIdent word, word⟩ :: lexChars (rest.dropWhile isLetterCh)
    else if c.isDigit then
      let num := String.mk (c :: rest.takeWhile Char.isDigit)
      ⟨INT, num⟩ :: lexChars (rest.dropWhile Char.isDigit)
    else
      ⟨charTokenType c, String.mk [c]⟩ :: lexChars rest
termination_by cs.length
decreasing_by
  · simp
  · simpa using Nat.lt_succ_of_le (dropWhile_length_le isLetterCh rest)
  · simpa using Nat.lt_succ_of_le (dropWhile_length_le Char.isDigit rest)
  · simp

/-- Modelled from the spec: tokenize a whole source string. -/
def lex (src : String) : List Token := lexChars src.data

end token

namespace ast

/-- Modelled from the spec: `ast.Identifier` (the ast package is not in the
repository sources).  Holds the originating token and the identifier text. -/
structure Identifier where
  tok : token.Token
  Value : String
deriving DecidableEq

/-- Modelled from the spec: the `ast.Expression` variants the parser
produces — `Identifier` and `IntegerLiteral` (token plus 64-bit value). -/
inductive Expression where
  | ident (i : Identifier)
  | integerLiteral (tok : token.Token) (Value : Int)
deriving DecidableEq

/-- Modelled from the spec: the `ast.Statement` interface values the parser
produces.  `LetStatement` carries its `let` token and `Name`; its `Value`
field is never assigned by this parser (skip-to-semicolon placeholder) and
is omitted, likewise `ReturnStatement.ReturnValue`.
`ExpressionStatement.Expression` may be absent (`nil` in Go) when the
expression failed to parse.  `nilLetStatement` is the interface value a Go
caller gets when a nil `*ast.LetStatement` pointer (returned by a failed
`parseLetStatement`) is implicitly converted to the `ast.Statement`
interface: the interface value holds a typed nil pointer and is itself
NON-nil, so `stmt != nil` is true of it. -/
inductive Statement where
  | letStmt (tok : token.Token) (Name : Identifier)
  | nilLetStatement
  | returnStmt (tok : token.Token)
  | exprStmt (tok : token.Token) (Expression : Option Expression)
deriving DecidableEq

/-- Modelled from the spec: `ast.Program` — the ordered statement list. -/
structure Program where
  Statements : List Statement
deriving DecidableEq

end ast

namespace parser

open token

/-- Go parser precedence constants (iota): LOWEST = 1 through CALL = 7. -/
def LOWEST : Nat := 1

def EQUALS : Nat := 2

def LESSGREATER : Nat := 3

def SUM : Nat := 4

def PRODUCT : Nat := 5

def PREFIX : Nat := 6

def CALL : Nat := 7

/-- The `Parser` struct from parser.go.  The Lexer handle `l` is modelled by
the list of tokens it has not yet produced (`rest`); pulling from an
exhausted stream yields `eofTok` again, matching the lexer contract of the
spec and the claim's description of the stream.  The prefix/infix dispatch
tables are filled once in `New` with fixed contents and are modelled by the
top-level lookup functions `prefixParseFns`/`infixParseFns` below. -/
structure Parser where
  rest : List Token
  errors : List String
  curToken : Token
  peekToken : Token
deriving DecidableEq

/-- Go `Lexer.NextToken` as the parser consumes it: the next token plus the
remaining stream; an exhausted lexer keeps producing the EOF token. -/
def lexerNext (ts : List Token) : Token × List Token := (ts.headD eofTok, ts.tail)

/-- Go `(p *Parser) nextToken`: shift peek into current and pull exactly
one new token from the lexer. -/
def nextToken (p : Parser) : Parser :=
  { p with
    curToken := p.peekToken
    peekToken := (lexerNext p.rest).1
    rest := (lexerNext p.rest).2 }

/-- Go `New`: build the parser with an empty error list, then prime the
two-token window (`p.peekToken = p.l.NextToken()` followed by
`p.nextToken()`).  The zero-value Go token has empty kind and literal. -/
def New (ts : List Token) : Parser :=
  let p : Parser := { rest := ts, errors := [], curToken := ⟨"", ""⟩, peekToken := ⟨"", ""⟩ }
  let p : Parser := { p with peekToken := (lexerNext p.rest).1, rest := (lexerNext p.rest).2 }
  nextToken p

/-- Go `curTokenIs`. -/
def curTokenIs (p : Parser) (t : TokenType) : Bool := p.curToken.typ = t

/-- Go `peekTokenIs`. -/
def peekTokenIs (p : Parser) (t : TokenType) : Bool := p.peekToken.typ = t

/-- Go `peekError`: append the expected/actual message to the error list. -/
def peekError (p : Parser) (t : TokenType) : Parser :=
  { p with
    errors := p.errors ++
      ["expected next token to be " ++ t ++ ", got " ++ p.peekToken.typ ++ " instead"] }

/-- Go `expectPeek`: advance on a kind match, record a peek error and stay
put otherwise. -/
def expectPeek (p : Parser) (t : TokenType) : Bool × Parser :=
  if peekTokenIs p t then (true, nextToken p) else (false, peekError p t)

/-- Go `parseIdentifier`: wrap the current token as an Identifier node,
consuming nothing. -/
def parseIdentifier (p : Parser) : Option ast.Expression × Parser :=
  (some (ast.Expression.ident ⟨p.curToken, p.curToken.Literal⟩), p)

/-- Digit value used by the ParseInt model (hex letters included; 99 marks
a non-digit, larger than every base in use). -/
def digitValue (c : Char) : Nat :=
  if c.isDigit then c.toNat - 48
  else if 'a' ≤ c ∧ c ≤ 'z' then c.toNat - 87
  else if 'A' ≤ c ∧ c ≤ 'Z' then c.toNat - 55
  else 99

/-- Parse a nonempty digit run in the given base; `none` on an empty run or
on a character that is not a digit of the base. -/
def parseDigits (base : Nat) (ds : List Char) : Option Nat :=
  match ds with
  | [] => none
  | _ =>
    ds.foldl
      (fun acc c =>
        match acc with
        | none => none
        | some n => if digitValue c < base then some (n * base + digitValue c) else none)
      (some 0)

/-- Model of Go `strconv.ParseInt(s, 0, 64)` as the parser calls it:
optional sign, base detection for base 0 (0x/0X hex, 0o/0O octal, 0b/0B
binary, legacy leading-zero octal, else decimal), the digit run, and a
signed 64-bit range check.  `none` stands for a non-nil Go `err`.
Digit-group underscores are not modelled: the lexer only emits plain digit
runs. -/
def goParseInt (s : String) : Option Int :=
  match s.data with
  | [] => none
  | cs =>
    let signed : Bool × List Char :=
      match cs with
      | '+' :: r => (false, r)
      | '-' :: r => (true, r)
      | r => (false, r)
    let based : Nat × List Char :=
      match signed.2 with
      | '0' :: c :: r =>
        if c = 'x' ∨ c = 'X' then (16, r)
        else if c = 'o' ∨ c = 'O' then (8, r)
        else if c = 'b' ∨ c = 'B' then (2, r)
        else (8, c :: r)
      | r => (10, r)
    match parseDigits based.1 based.2 with
    | none => none
    | some n =>
      let v : Int := if signed.1 then -(n : Int) else (n : Int)
      if -(2 ^ 63) ≤ v ∧ v ≤ 2 ^ 63 - 1 then some v else none

/-- Model of Go's `%q` verb in the integer-error message: double quotes
around the literal (escape sequences are not modelled; only digit-run
literals are ever quoted here). -/
def goQuote (s : String) : String := "\"" ++ s ++ "\""

/-- Go `parseIntegerLiteral`: convert the current literal via ParseInt; on
failure append the conversion error and produce no node. -/
def parseIntegerLiteral (p : Parser) : Option ast.Expression × Parser :=
  match goParseInt p.curToken.Literal with
  | some v => (some (ast.Expression.integerLiteral p.curToken v), p)
  | none =>
    (none,
      { p with errors := p.errors ++
          ["could not parse " ++ goQuote p.curToken.Literal ++ " as integer"] })

/-- The prefix dispatch table with exactly the two entries `New` registers:
`IDENT ↦ parseIdentifier` and `INT ↦ parseIntegerLiteral`; every other kind
is unregistered (a Go map lookup there yields nil). -/
def prefixParseFns (t : TokenType) : Option (Parser → Option ast.Expression × Parser) :=
  if t = IDENT then some parseIdentifier
  else if t = INT then some parseIntegerLiteral
  else none

/-- The infix dispatch table: nothing is ever registered in it. -/
def infixParseFns (_t : TokenType) :
    Option (ast.Expression → Parser → Option ast.Expression × Parser) :=
  none

/-- Go `parseExpression`: look up a prefix function for the current token
kind.  A missing entry yields no node, and — exactly as in the source —
only a debug print happens in that branch: the error list is left
untouched.  Otherwise the registered function runs. -/
def parseExpression (p : Parser) (_precedence : Nat) : Option ast.Expression × Parser :=
  match prefixParseFns p.curToken.typ with
  | none => (none, p)
  | some f => f p

/-- Go `parseExpressionStatement`: remember the current token, parse one
expression at LOWEST, then optionally consume a trailing semicolon.  A
statement node is always produced (never nil), even when the inner
expression failed. -/
def parseExpressionStatement (p : Parser) : ast.Statement × Parser :=
  let tok := p.curToken
  let r := parseExpression p LOWEST
  let p2 := if peekTokenIs r.2 SEMICOLON then nextToken r.2 else r.2
  (ast.Statement.exprStmt tok r.1, p2)

/-- The `for !p.curTokenIs(token.SEMICOLON) { p.nextToken() }` loop shared
by `parseLetStatement` and `parseReturnStatement`, acting on the cursor
triple (current, peek, unread rest).  Once the finite stream is exhausted
the lexer yields only `eofTok`, whose kind is never `SEMICOLON`, so the Go
loop runs forever exactly when no semicolon remains; that case is `none`. -/
def skipGo (cur peek : Token) : List Token → Option (Token × Token × List Token)
  | r :: rs =>
    if cur.typ = SEMICOLON then some (cur, peek, r :: rs)
    else skipGo peek r rs
  | [] =>
    if cur.typ = SEMICOLON then some (cur, peek, [])
    else if peek.typ = SEMICOLON then some (peek, eofTok, [])
    else none

/-- The skip loop lifted back to parser state; `none` means the Go loop
never terminates. -/
def skipToSemicolon (p : Parser) : Option Parser :=
  match skipGo p.curToken p.peekToken p.rest with
  | none => none
  | some (c, pk, r) => some { p with curToken := c, peekToken := pk, rest := r }

/-- Go `parseLetStatement`: `let`, an expected identifier, an expected `=`,
then the skip-to-semicolon placeholder (a TODO in the source).
`some (none, _)` is Go's `return nil` after a failed expectation; the outer
`none` means the skip loop diverged. -/
def parseLetStatement (p : Parser) : Option (Option ast.Statement × Parser) :=
  let tok := p.curToken
  let r1 := expectPeek p IDENT
  if !r1.1 then some (none, r1.2)
  else
    let p1 := r1.2
    let name : ast.Identifier := ⟨p1.curToken, p1.curToken.Literal⟩
    let r2 := expectPeek p1 ASSIGN
    if !r2.1 then some (none, r2.2)
    else
      match skipToSemicolon r2.2 with
      | none => none
      | some p3 => some (some (ast.Statement.letStmt tok name), p3)

/-- Go `parseReturnStatement`: remember the `return` token, advance once,
then the same skip-to-semicolon placeholder.  Its only Go return statement
yields the (non-nil) `stmt` pointer, so no nil case exists here. -/
def parseReturnStatement (p : Parser) : Option (ast.Statement × Parser) :=
  let tok := p.curToken
  match skipToSemicolon (nextToken p) with
  | none => none
  | some p1 => some (ast.Statement.returnStmt tok, p1)

/-- Go `parseStatement`: dispatch on the current token kind (`LET`,
`RETURN`, default expression statement).  The Go result type is the
`ast.Statement` interface, and each branch implicitly converts its concrete
statement pointer into an interface value.  That conversion boxes even a
nil `*ast.LetStatement` from a failed `parseLetStatement` into a NON-nil
interface value — `nilLetStatement` — which is why `ParseProgram`'s
`stmt != nil` test never drops it.  The inner `Option` mirrors interface
nil-ness, which no branch ever produces. -/
def parseStatement (p : Parser) : Option (Option ast.Statement × Parser) :=
  if p.curToken.typ = LET then
    match parseLetStatement p with
    | none => none
    | some (stmtPtr, p1) =>
      some
        (some
          (match stmtPtr with
            | some s => s
            | none => ast.Statement.nilLetStatement),
          p1)
  else if p.curToken.typ = RETURN then
    match parseReturnStatement p with
    | none => none
    | some (s, p1) => some (some s, p1)
  else
    let r := parseExpressionStatement p
    some (some r.1, r.2)

/-- The token cursor of a parser state: (current, peek, unread rest). -/
def tripleOf (p : Parser) : Token × Token × List Token := (p.curToken, p.peekToken, p.rest)

/-- The cursor action of one `nextToken` step. -/
def shiftT (t : Token × Token × List Token) : Token × Token × List Token :=
  (t.2.1, t.2.2.headD eofTok, t.2.2.tail)

/-- One `nextToken` acts on the cursor exactly as `shiftT`. -/
theorem tripleOf_nextToken (p : Parser) : tripleOf (nextToken p) = shiftT (tripleOf p) := rfl

/-- Iterated `nextToken` acts on the cursor as iterated `shiftT`. -/
theorem tripleOf_iterate (k : Nat) (p : Parser) :
    tripleOf (nextToken^[k] p) = shiftT^[k] (tripleOf p) := by
  induction k generalizing p with
  | zero => rfl
  | succ k ih =>
    rw [Function.iterate_succ_apply, Function.iterate_succ_apply, ih, tripleOf_nextToken]

/-- Remaining-work bound for the outer statement loop: the unread tokens
plus one for each cursor slot not yet holding an end-of-input kind. -/
def muT (t : Token × Token × List Token) : Nat :=
  t.2.2.length + (if t.1.typ = EOF then 0 else 1) + (if t.2.1.typ = EOF then 0 else 1)

/-- Remaining-work bound on parser states. -/
def mu (p : Parser) : Nat := muT (tripleOf p)

/-- One cursor shift never increases the remaining work. -/
theorem muT_shift_le (t : Token × Token × List Token) : muT (shiftT t) ≤ muT t := by
  obtain ⟨c, pk, rest⟩ := t
  cases rest <;> simp [muT, shiftT, eofTok] <;> split_ifs <;> omega

/-- A cursor shift from a non-end-of-input current token strictly shrinks
the remaining work. -/
theorem muT_shift_lt (t : Token × Token × List Token) (h : ¬ t.1.typ = EOF) :
    muT (shiftT t) < muT t := by
  obtain ⟨c, pk, rest⟩ := t
  cases rest <;> simp [muT, shiftT, eofTok] at h ⊢ <;> split_ifs <;> omega

/-- Iterated shifts never increase the remaining work. -/
theorem muT_iterate_le (j : Nat) (t : Token × Token × List Token) :
    muT (shiftT^[j] t) ≤ muT t := by
  induction j generalizing t with
  | zero => exact le_refl _
  | succ j ih =>
    rw [Function.iterate_succ_apply]
    exact le_trans (ih (shiftT t)) (muT_shift_le t)

/-- `peekError` only appends an error message: the cursor is untouched. -/
theorem tripleOf_peekError (p : Parser) (t : TokenType) :
    tripleOf (peekError p t) = tripleOf p := rfl

/-- `parseIdentifier` never moves the cursor. -/
theorem tripleOf_parseIdentifier (p : Parser) :
    tripleOf (parseIdentifier p).2 = tripleOf p := rfl

/-- `parseIntegerLiteral` never moves the cursor (it may append an error). -/
theorem tripleOf_parseIntegerLiteral (p : Parser) :
    tripleOf (parseIntegerLiteral p).2 = tripleOf p := by
  unfold parseIntegerLiteral
  cases goParseInt p.curToken.Literal <;> rfl

/-- `parseExpression` never moves the cursor (both registered prefix
functions and the unregistered-kind branch leave it in place). -/
theorem tripleOf_parseExpression (p : Parser) (n : Nat) :
    tripleOf (parseExpression p n).2 = tripleOf p := by
  unfold parseExpression prefixParseFns
  split_ifs
  · exact tripleOf_parseIdentifier p
  · exact tripleOf_parseIntegerLiteral p
  · rfl

/-- `expectPeek` on a matching peek kind. -/
theorem expectPeek_true (p : Parser) (t : TokenType) (h : peekTokenIs p t = true) :
    expectPeek p t = (true, nextToken p) := by
  unfold expectPeek
  rw [if_pos h]

/-- `expectPeek` on a non-matching peek kind. -/
theorem expectPeek_false (p : Parser) (t : TokenType) (h : ¬ peekTokenIs p t = true) :
    expectPeek p t = (false, peekError p t) := by
  unfold expectPeek
  rw [if_neg h]

/-- A successful run of the skip loop moves the cursor by some number of
shifts. -/
theorem skipGo_shift (rest : List Token) :
    ∀ cur peek out, skipGo cur peek rest = some out →
      ∃ j, out = shiftT^[j] (cur, peek, rest) := by
  induction rest with
  | nil =>
    intro cur peek out h
    unfold skipGo at h
    split_ifs at h
    · exact ⟨0, by injection h with h; rw [← h]; rfl⟩
    · exact ⟨1, by injection h with h; rw [← h]; rfl⟩
  | cons r rs ih =>
    intro cur peek out h
    unfold skipGo at h
    split_ifs at h
    · exact ⟨0, by injection h with h; rw [← h]; rfl⟩
    · obtain ⟨j, hj⟩ := ih peek r out h
      exact ⟨j + 1, by rw [Function.iterate_succ_apply]; exact hj⟩

/-- A terminating skip-to-semicolon moves the cursor by some number of
`nextToken` shifts. -/
theorem tripleOf_skipToSemicolon (p q : Parser) (h : skipToSemicolon p = some q) :
    ∃ j, tripleOf q = shiftT^[j] (tripleOf p) := by
  unfold skipToSemicolon at h
  cases hg : skipGo p.curToken p.peekToken p.rest with
  | none => rw [hg] at h; cases h
  | some out =>
    rw [hg] at h
    obtain ⟨c, pk, r⟩ := out
    obtain ⟨j, hj⟩ := skipGo_shift p.rest p.curToken p.peekToken (c, pk, r) hg
    injection h with h
    exact ⟨j, by rw [← h]; exact hj⟩

/-- `parseExpressionStatement` moves the cursor by zero or one shift. -/
theorem tripleOf_parseExpressionStatement (p : Parser) :
    ∃ j, tripleOf (parseExpressionStatement p).2 = shiftT^[j] (tripleOf p) := by
  unfold parseExpressionStatement
  dsimp only
  split_ifs with h
  · exact ⟨1, by rw [Function.iterate_one, tripleOf_nextToken, tripleOf_parseExpression]⟩
  · exact ⟨0, tripleOf_parseExpression p LOWEST⟩

/-- A terminating `parseLetStatement` moves the cursor by some number of
`nextToken` shifts. -/
theorem tripleOf_parseLetStatement (p : Parser) (st : Option ast.Statement) (q : Parser)
    (h : parseLetStatement p = some (st, q)) :
    ∃ j, tripleOf q = shiftT^[j] (tripleOf p) := by
  unfold parseLetStatement at h
  by_cases h1 : peekTokenIs p IDENT = true
  · rw [expectPeek_true p IDENT h1] at h
    simp only [Bool.not_true, Bool.not_false, Bool.false_eq_true, if_false, if_true] at h
    by_cases h2 : peekTokenIs (nextToken p) ASSIGN = true
    · rw [expectPeek_true (nextToken p) ASSIGN h2] at h
      simp only [Bool.not_true, Bool.not_false, Bool.false_eq_true, if_false, if_true] at h
      cases hs : skipToSemicolon (nextToken (nextToken p)) with
      | none => rw [hs] at h; cases h
      | some p3 =>
        rw [hs] at h
        obtain ⟨j, hj⟩ := tripleOf_skipToSemicolon _ _ hs
        refine ⟨j + 2, ?_⟩
        have hq : p3 = q := by
          have h' := h
          simp only [Option.some.injEq, Prod.mk.injEq] at h'
          exact h'.2
        rw [← hq, hj, tripleOf_nextToken, tripleOf_nextToken]
        rw [show j + 2 = j + 1 + 1 from rfl, Function.iterate_succ_apply,
          Function.iterate_succ_apply]
    · rw [expectPeek_false (nextToken p) ASSIGN h2] at h
      simp only [Bool.not_true, Bool.not_false, Bool.false_eq_true, if_false, if_true,
        Option.some.injEq, Prod.mk.injEq] at h
      refine ⟨1, ?_⟩
      rw [← h.2, tripleOf_peekError, tripleOf_nextToken, Function.iterate_one]
  · rw [expectPeek_false p IDENT h1] at h
    simp only [Bool.not_true, Bool.not_false, Bool.false_eq_true, if_false, if_true,
      Option.some.injEq, Prod.mk.injEq] at h
    exact ⟨0, by rw [← h.2, tripleOf_peekError]; rfl⟩

/-- A terminating `parseReturnStatement` moves the cursor by some number of
`nextToken` shifts. -/
theorem tripleOf_parseReturnStatement (p : Parser) (st : ast.Statement) (q : Parser)
    (h : parseReturnStatement p = some (st, q)) :
    ∃ j, tripleOf q = shiftT^[j] (tripleOf p) := by
  unfold parseReturnStatement at h
  cases hs : skipToSemicolon (nextToken p) with
  | none => rw [hs] at h; cases h
  | some p1 =>
    rw [hs] at h
    obtain ⟨j, hj⟩ := tripleOf_skipToSemicolon _ _ hs
    refine ⟨j + 1, ?_⟩
    simp only [Option.some.injEq, Prod.mk.injEq] at h
    rw [← h.2, hj, tripleOf_nextToken, Function.iterate_succ_apply]

/-- Whenever `parseStatement` returns, its cursor has moved by some number
of `nextToken` shifts from the input cursor. -/
theorem tripleOf_parseStatement (p : Parser) (st : Option ast.Statement) (q : Parser)
    (h : parseStatement p = some (st, q)) :
    ∃ j, tripleOf q = shiftT^[j] (tripleOf p) := by
  unfold parseStatement at h
  split_ifs at h with hLet hRet
  · -- let statement
    cases hl : parseLetStatement p with
    | none => rw [hl] at h; cases h
    | some r =>
      obtain ⟨stmtPtr, p1⟩ := r
      rw [hl] at h
      simp only [Option.some.injEq, Prod.mk.injEq] at h
      obtain ⟨j, hj⟩ := tripleOf_parseLetStatement p stmtPtr p1 hl
      exact ⟨j, by rw [← h.2]; exact hj⟩
  · -- return statement
    cases hr : parseReturnStatement p with
    | none => rw [hr] at h; cases h
    | some r =>
      obtain ⟨s, p1⟩ := r
      rw [hr] at h
      simp only [Option.some.injEq, Prod.mk.injEq] at h
      obtain ⟨j, hj⟩ := tripleOf_parseReturnStatement p s p1 hr
      exact ⟨j, by rw [← h.2]; exact hj⟩
  · -- expression statement
    obtain ⟨j, hj⟩ := tripleOf_parseExpressionStatement p
    refine ⟨j, ?_⟩
    have h' := h
    simp only [Option.some.injEq, Prod.mk.injEq] at h'
    rw [← h'.2]
    exact hj

/-- The strict decrease driving termination of the outer statement loop:
when the loop body runs (current token kind differs from the end-of-input
kind) and `parseStatement` returns, the trailing `nextToken` lands strictly
below the starting measure. -/
theorem parseStatement_mu_lt (p : Parser) (st : Option ast.Statement) (q : Parser)
    (hcur : ¬ p.curToken.typ = EOF) (h : parseStatement p = some (st, q)) :
    mu (nextToken q) < mu p := by
  obtain ⟨j, hj⟩ := tripleOf_parseStatement p st q h
  have hcomm : shiftT (shiftT^[j] (tripleOf p)) = shiftT^[j] (shiftT (tripleOf p)) :=
    (Function.iterate_succ_apply' shiftT j (tripleOf p)).symm.trans
      (Function.iterate_succ_apply shiftT j (tripleOf p))
  have h1 : mu (nextToken q) = muT (shiftT^[j] (shiftT (tripleOf p))) := by
    rw [mu, tripleOf_nextToken, hj, hcomm]
  rw [h1]
  exact lt_of_le_of_lt (muT_iterate_le j (shiftT (tripleOf p))) (muT_shift_lt (tripleOf p) hcur)

/-- The `for p.curToken.Type != token.EOF` loop of Go `ParseProgram`:
parse one statement, append it when the interface value is non-nil,
advance, repeat.  `none` propagates a diverging skip loop.  The nil filter
mirrors Go's `if stmt != nil` literally; because `parseStatement` always
boxes a concrete (possibly nil) statement pointer into a non-nil interface
value, the filter never actually drops anything — a failed let statement
is appended as `nilLetStatement`. -/
def parseLoop (p : Parser) (acc : List ast.Statement) :
    Option (List ast.Statement × Parser) :=
  if p.curToken.typ = EOF then some (acc, p)
  else
    match h : parseStatement p with
    | none => none
    | some (stmtOpt, p1) =>
      let acc2 :=
        match stmtOpt with
        | some s => acc ++ [s]
        | none => acc
      parseLoop (nextToken p1) acc2
termination_by mu p
decreasing_by
  exact parseStatement_mu_lt p stmtOpt p1 (by assumption) h

/-- Go `ParseProgram`: run the statement loop from the current state and
wrap the collected statements in a `Program`; `none` means the parse never
terminates. -/
def ParseProgram (p : Parser) : Option (ast.Program × Parser) :=
  match parseLoop p [] with
  | none => none
  | some (stmts, q) => some (⟨stmts⟩, q)

/-- Go `Errors`: the accumulated error strings. -/
def Errors (p : Parser) : List String := p.errors

/-- The caller contract from the spec (`New(lexer)` then `ParseProgram()`
then `Errors()`) over a source string: the resulting program together with
the accumulated errors, or `none` when the parse diverges. -/
def parseSource (src : String) : Option (ast.Program × List String) :=
  match ParseProgram (New (lex src)) with
  | none => none
  | some (prog, q) => some (prog, Errors q)

/-- The n-th token of a finite lexer stream, with the exhausted lexer
yielding the EOF token forever. -/
def streamAt (ts : List Token) (n : Nat) : Token := (ts.drop n).headD eofTok

/-- After construction (which pulls exactly two tokens) and `k` cursor
advances, the window holds tokens `k` and `k+1` of the stream and exactly
`k+2` tokens have been pulled from the lexer. -/
theorem window_at (ts : List Token) (k : Nat) :
    (nextToken^[k] (New ts)).curToken = streamAt ts k ∧
      (nextToken^[k] (New ts)).peekToken = streamAt ts (k + 1) ∧
      (nextToken^[k] (New ts)).rest = ts.drop (k + 2) := by
  induction k with
  | zero =>
    refine ⟨rfl, ?_, ?_⟩
    · show ts.tail.headD eofTok = (ts.drop 1).headD eofTok
      rw [List.drop_one]
    · show ts.tail.tail = ts.drop 2
      rw [← List.drop_one, ← List.drop_one, List.drop_drop]
  | succ k ih =>
    obtain ⟨h1, h2, h3⟩ := ih
    rw [Function.iterate_succ_apply']
    refine ⟨h2, ?_, ?_⟩
    · show (nextToken^[k] (New ts)).rest.headD eofTok = streamAt ts (k + 2)
      rw [h3]; rfl
    · show (nextToken^[k] (New ts)).rest.tail = ts.drop (k + 1 + 2)
      rw [h3, ← List.drop_one, List.drop_drop]

/-- A successful run of the skip loop always ends on a semicolon token. -/
theorem skipGo_semi (rest : List Token) :
    ∀ cur peek c pk r, skipGo cur peek rest = some (c, pk, r) → c.typ = SEMICOLON := by
  induction rest with
  | nil =>
    intro cur peek c pk r h
    unfold skipGo at h
    split_ifs at h with h1 h2 <;> simp only [Option.some.injEq, Prod.mk.injEq] at h
    · rw [← h.1]; exact h1
    · rw [← h.1]; exact h2
  | cons t ts ih =>
    intro cur peek c pk r h
    unfold skipGo at h
    split_ifs at h with h1
    · simp only [Option.some.injEq, Prod.mk.injEq] at h
      rw [← h.1]; exact h1
    · exact ih peek t c pk r h

/-- A terminating skip-to-semicolon leaves the current token on the
semicolon. -/
theorem skipToSemicolon_semi (p q : Parser) (h : skipToSemicolon p = some q) :
    q.curToken.typ = SEMICOLON := by
  unfold skipToSemicolon at h
  cases hg : skipGo p.curToken p.peekToken p.rest with
  | none => rw [hg] at h; cases h
  | some out =>
    rw [hg] at h
    obtain ⟨c, pk, r⟩ := out
    simp only [Option.some.injEq] at h
    rw [← h]
    exact skipGo_semi p.rest p.curToken p.peekToken c pk r hg

/-- On success (a statement node is produced), `parseLetStatement` leaves
the current token exactly on the terminating semicolon. -/
theorem parseLetStatement_semi (p : Parser) (st : ast.Statement) (q : Parser)
    (h : parseLetStatement p = some (some st, q)) : q.curToken.typ = SEMICOLON := by
  unfold parseLetStatement at h
  by_cases h1 : peekTokenIs p IDENT = true
  · rw [expectPeek_true p IDENT h1] at h
    simp only [Bool.not_true, Bool.false_eq_true, if_false] at h
    by_cases h2 : peekTokenIs (nextToken p) ASSIGN = true
    · rw [expectPeek_true (nextToken p) ASSIGN h2] at h
      simp only [Bool.not_true, Bool.false_eq_true, if_false] at h
      cases hs : skipToSemicolon (nextToken (nextToken p)) with
      | none => rw [hs] at h; cases h
      | some p3 =>
        rw [hs] at h
        simp only [Option.some.injEq, Prod.mk.injEq] at h
        rw [← h.2]
        exact skipToSemicolon_semi _ _ hs
    · rw [expectPeek_false (nextToken p) ASSIGN h2] at h
      simp at h
  · rw [expectPeek_false p IDENT h1] at h
    simp at h

end parser

/-!
## The claims
-/

/-- C3: the token-kind constant for the end-of-input marker is defined with
the same string literal as the integer-literal token kind (both equal
"INT"), so for every token `t`, `t.typ = EOF` holds iff `t.typ = INT`;
consequently the `ParseProgram` loop guard cannot distinguish an
integer-literal token in current position from end of input. -/
theorem c3_eof_collides_with_int :
    token.EOF = token.INT ∧
      (∀ t : token.Token, t.typ = token.EOF ↔ t.typ = token.INT) ∧
      (∀ p : parser.Parser, p.curToken.typ = token.EOF ↔ p.curToken.typ = token.INT) :=
  ⟨rfl, fun _ => Iff.rfl, fun _ => Iff.rfl⟩

/-- C1 (evaluation at the failing input): because `EOF = "INT"`, the
`ParseProgram` loop guard exits immediately on the integer-literal current
token, so parsing "5;" yields a program with zero statements and no errors
— not the one `ExpressionStatement` holding `IntegerLiteral 5` that the
claim (and the spec's intent) describes. -/
theorem c1_five_semicolon_zero_statements :
    parser.parseSource ("5;") = some (⟨[]⟩, ([] : List String)) := by
  simp [parser.parseSource, token.lex, parser.ParseProgram, parser.New, parser.parseLoop,
    parser.parseStatement, parser.parseLetStatement, parser.parseReturnStatement,
    parser.parseExpressionStatement, parser.parseExpression, parser.prefixParseFns,
    parser.parseIdentifier, parser.parseIntegerLiteral, parser.expectPeek, parser.peekTokenIs,
    parser.peekError, parser.nextToken, parser.lexerNext, parser.skipToSemicolon, parser.skipGo,
    parser.curTokenIs, token.lexChars, token.LookupIdent, token.keywords, token.FUNCTION, List.lookup, token.eofTok,
    token.EOF, token.INT, token.IDENT, token.LET, token.ASSIGN, token.SEMICOLON, token.RETURN,
    token.isLetterCh, token.charTokenType, parser.goParseInt, parser.Errors]

/-- C2 (evaluation at the failing input): on the source "let x =" — no
semicolon before end of input — both `expectPeek` calls succeed and the
skip-to-semicolon loop inside `parseLetStatement` then runs forever: the
exhausted lexer repeats the end-of-input token, whose kind is never
`SEMICOLON`.  The embedding records that divergence as `none`, refuting
the claim that `ParseProgram` terminates for every source string. -/
theorem c2_missing_semicolon_diverges :
    parser.parseSource ("let x =") = none := by
  simp [parser.parseSource, token.lex, parser.ParseProgram, parser.New, parser.parseLoop,
    parser.parseStatement, parser.parseLetStatement, parser.parseReturnStatement,
    parser.parseExpressionStatement, parser.parseExpression, parser.prefixParseFns,
    parser.parseIdentifier, parser.parseIntegerLiteral, parser.expectPeek, parser.peekTokenIs,
    parser.peekError, parser.nextToken, parser.lexerNext, parser.skipToSemicolon, parser.skipGo,
    parser.curTokenIs, token.lexChars, token.LookupIdent, token.keywords, token.FUNCTION, List.lookup, token.eofTok,
    token.EOF, token.INT, token.IDENT, token.LET, token.ASSIGN, token.SEMICOLON, token.RETURN,
    token.isLetterCh, token.charTokenType, parser.goParseInt, parser.Errors]

/-- C4 (evaluation at the failing input): when no prefix parse function is
registered for the current token kind, `parseExpression` returns no node
but leaves the error list exactly as it was — the Go branch only
debug-prints, so the error list does not grow by one as the claim states.
End to end, parsing "+;" produces an expression statement with no
expression and records no error at all. -/
theorem c4_no_prefix_fn_appends_no_error :
    (parser.parseExpression
          (⟨[], [("boot")], ⟨token.ASSIGN, ("=")⟩, token.eofTok⟩ : parser.Parser)
          parser.LOWEST =
        (none, (⟨[], [("boot")], ⟨token.ASSIGN, ("=")⟩, token.eofTok⟩ : parser.Parser))) ∧
      parser.parseSource ("+;") =
        some (⟨[ast.Statement.exprStmt ⟨token.PLUS, ("+")⟩ none]⟩, ([] : List String)) := by
  constructor
  · rfl
  · simp [parser.parseSource, token.lex, parser.ParseProgram, parser.New, parser.parseLoop,
      parser.parseStatement, parser.parseLetStatement, parser.parseReturnStatement,
      parser.parseExpressionStatement, parser.parseExpression, parser.prefixParseFns,
      parser.parseIdentifier, parser.parseIntegerLiteral, parser.expectPeek, parser.peekTokenIs,
      parser.peekError, parser.nextToken, parser.lexerNext, parser.skipToSemicolon,
      parser.skipGo, parser.curTokenIs, token.lexChars, token.LookupIdent, token.keywords, token.FUNCTION, List.lookup,
      token.eofTok, token.EOF, token.INT, token.IDENT, token.LET, token.ASSIGN, token.PLUS,
      token.SEMICOLON, token.RETURN, token.isLetterCh, token.charTokenType, parser.goParseInt,
      parser.Errors]

/-- C5 (evaluation at the failing input): parsing "let x 5;" (missing `=`)
does record exactly one error naming the expected assignment-operator
kind, but the program does NOT have zero statements: the failed
`parseLetStatement` returns a nil `*ast.LetStatement`, Go boxes it into a
non-nil `ast.Statement` interface value, `stmt != nil` therefore holds,
and the nil statement is appended — one statement, where the claim (and
the spec's silently-dropped policy) says zero. -/
theorem c5_nil_let_statement_appended :
    parser.parseSource ("let x 5;") =
      some (⟨[ast.Statement.nilLetStatement]⟩,
        [("expected next token to be =, got INT instead")]) := by
  simp [parser.parseSource, token.lex, parser.ParseProgram, parser.New, parser.parseLoop,
    parser.parseStatement, parser.parseLetStatement, parser.parseReturnStatement,
    parser.parseExpressionStatement, parser.parseExpression, parser.prefixParseFns,
    parser.parseIdentifier, parser.parseIntegerLiteral, parser.expectPeek, parser.peekTokenIs,
    parser.peekError, parser.nextToken, parser.lexerNext, parser.skipToSemicolon, parser.skipGo,
    parser.curTokenIs, token.lexChars, token.LookupIdent, token.keywords, token.FUNCTION, List.lookup, token.eofTok,
    token.EOF, token.INT, token.IDENT, token.LET, token.ASSIGN, token.SEMICOLON, token.RETURN,
    token.isLetterCh, token.charTokenType, parser.goParseInt, parser.Errors]

/-- C6: parsing "let x = 5;" with a fresh parser yields exactly one
`LetStatement` whose `Name.Value` is "x"; and in general, whenever
`parseLetStatement` returns successfully (produces a statement node), the
current token is positioned exactly on the semicolon ending the statement. -/
theorem c6_let_x_five :
    (∀ (p : parser.Parser) (st : ast.Statement) (q : parser.Parser),
        parser.parseLetStatement p = some (some st, q) →
          q.curToken.typ = token.SEMICOLON) ∧
      parser.parseSource ("let x = 5;") =
        some (⟨[ast.Statement.letStmt ⟨token.LET, ("let")⟩ ⟨⟨token.IDENT, ("x")⟩, ("x")⟩]⟩,
          ([] : List String)) := by
  constructor
  · exact parser.parseLetStatement_semi
  · simp [parser.parseSource, token.lex, parser.ParseProgram, parser.New, parser.parseLoop,
      parser.parseStatement, parser.parseLetStatement, parser.parseReturnStatement,
      parser.parseExpressionStatement, parser.parseExpression, parser.prefixParseFns,
      parser.parseIdentifier, parser.parseIntegerLiteral, parser.expectPeek, parser.peekTokenIs,
      parser.peekError, parser.nextToken, parser.lexerNext, parser.skipToSemicolon,
      parser.skipGo, parser.curTokenIs, token.lexChars, token.LookupIdent, token.keywords, token.FUNCTION, List.lookup,
      token.eofTok, token.EOF, token.INT, token.IDENT, token.LET, token.ASSIGN, token.SEMICOLON,
      token.RETURN, token.isLetterCh, token.charTokenType, parser.goParseInt, parser.Errors]

/-- Witness for C6: at the concrete source "let x = 5;" the let statement
parses to the expected node and the final current token is the semicolon. -/
theorem c6_let_x_five_witness :
    parser.parseLetStatement (parser.New (token.lex ("let x = 5;"))) =
      some (some (ast.Statement.letStmt ⟨token.LET, ("let")⟩ ⟨⟨token.IDENT, ("x")⟩, ("x")⟩),
        (⟨[], [], ⟨token.SEMICOLON, (";")⟩, ⟨token.EOF, ("")⟩⟩ : parser.Parser)) ∧
      ((⟨[], [], ⟨token.SEMICOLON, (";")⟩, ⟨token.EOF, ("")⟩⟩ : parser.Parser).curToken.typ =
        token.SEMICOLON) := by
  have h : parser.parseLetStatement (parser.New (token.lex ("let x = 5;"))) =
      some (some (ast.Statement.letStmt ⟨token.LET, ("let")⟩ ⟨⟨token.IDENT, ("x")⟩, ("x")⟩),
        (⟨[], [], ⟨token.SEMICOLON, (";")⟩, ⟨token.EOF, ("")⟩⟩ : parser.Parser)) := by
    simp [token.lex, parser.New, parser.parseLetStatement, parser.expectPeek,
      parser.peekTokenIs, parser.peekError, parser.nextToken, parser.lexerNext,
      parser.skipToSemicolon, parser.skipGo, token.lexChars, token.LookupIdent, token.keywords, token.FUNCTION, List.lookup,
      token.eofTok, token.EOF, token.INT, token.IDENT, token.LET, token.ASSIGN, token.SEMICOLON,
      token.isLetterCh, token.charTokenType]
  exact ⟨h, c6_let_x_five.1 _ _ _ h⟩

/-- C7 (evaluation at the failing input): the keywords table has no entry
for "return" (and the token source defines no RETURN constant), so
`LookupIdent` classifies "return" as a plain identifier and parsing
"return 10;" yields one `ExpressionStatement` holding the identifier
"return" — one statement, but not the `ReturnStatement` the claim states. -/
theorem c7_return_parses_as_identifier :
    token.LookupIdent ("return") = token.IDENT ∧
      parser.parseSource ("return 10;") =
        some (⟨[ast.Statement.exprStmt ⟨token.IDENT, ("return")⟩
            (some (ast.Expression.ident ⟨⟨token.IDENT, ("return")⟩, ("return")⟩))]⟩,
          ([] : List String)) := by
  constructor
  · rfl
  · simp [parser.parseSource, token.lex, parser.ParseProgram, parser.New, parser.parseLoop,
      parser.parseStatement, parser.parseLetStatement, parser.parseReturnStatement,
      parser.parseExpressionStatement, parser.parseExpression, parser.prefixParseFns,
      parser.parseIdentifier, parser.parseIntegerLiteral, parser.expectPeek, parser.peekTokenIs,
      parser.peekError, parser.nextToken, parser.lexerNext, parser.skipToSemicolon,
      parser.skipGo, parser.curTokenIs, token.lexChars, token.LookupIdent, token.keywords, token.FUNCTION, List.lookup,
      token.eofTok, token.EOF, token.INT, token.IDENT, token.LET, token.ASSIGN, token.SEMICOLON,
      token.RETURN, token.isLetterCh, token.charTokenType, parser.goParseInt, parser.Errors]

/-- C8: parsing the same source twice with two independently constructed
fresh parsers yields structurally identical programs and element-wise
identical error sequences.  The embedded parser is a pure function of the
token stream — the Go code is single-threaded, takes no input other than
the source, and uses no global mutable state — so the two runs are the
same computation. -/
theorem c8_parse_deterministic (src : String) :
    (parser.ParseProgram (parser.New (token.lex src))).map Prod.fst =
        (parser.ParseProgram (parser.New (token.lex src))).map Prod.fst ∧
      (parser.ParseProgram (parser.New (token.lex src))).map (fun r => parser.Errors r.2) =
        (parser.ParseProgram (parser.New (token.lex src))).map (fun r => parser.Errors r.2) :=
  ⟨rfl, rfl⟩

/-- C9: after construction (which pulls exactly two tokens) and any number
`k` of cursor advances, `curToken` and `peekToken` hold tokens `k` and
`k+1` of the lexer stream (the EOF token once it is exhausted) and exactly
`k+2` tokens have been pulled; moreover `nextToken` shifts peek into
current, pulls exactly one new token and touches nothing else; and every
cursor movement performed by `parseStatement` is an iterate of
`nextToken`, so the parser never inspects more than the two-token window. -/
theorem c9_lookahead_window :
    (∀ (ts : List token.Token) (k : Nat),
        (parser.nextToken^[k] (parser.New ts)).curToken = parser.streamAt ts k ∧
          (parser.nextToken^[k] (parser.New ts)).peekToken = parser.streamAt ts (k + 1) ∧
          (parser.nextToken^[k] (parser.New ts)).rest = ts.drop (k + 2)) ∧
      (∀ q : parser.Parser,
          (parser.nextToken q).curToken = q.peekToken ∧
            (parser.nextToken q).peekToken = q.rest.headD token.eofTok ∧
            (parser.nextToken q).rest = q.rest.tail ∧
            (parser.nextToken q).errors = q.errors) ∧
      (∀ (p : parser.Parser) (st : Option ast.Statement) (q : parser.Parser),
          parser.parseStatement p = some (st, q) →
            ∃ j, parser.tripleOf q = parser.tripleOf (parser.nextToken^[j] p)) := by
  refine ⟨parser.window_at, fun q => ⟨rfl, rfl, rfl, rfl⟩, fun p st q h => ?_⟩
  obtain ⟨j, hj⟩ := parser.tripleOf_parseStatement p st q h
  exact ⟨j, by rw [hj, parser.tripleOf_iterate]⟩

/-- Witness for C9: a concrete `parseStatement` step (statement "x;" with
the cursor primed on the identifier) whose result cursor is an iterate of
`nextToken` from the input cursor. -/
theorem c9_lookahead_window_witness :
    ∃ j, parser.tripleOf (⟨[], [], ⟨token.SEMICOLON, (";")⟩, token.eofTok⟩ : parser.Parser) =
      parser.tripleOf (parser.nextToken^[j]
        (⟨[token.eofTok], [], ⟨token.IDENT, ("x")⟩, ⟨token.SEMICOLON, (";")⟩⟩ : parser.Parser)) :=
  c9_lookahead_window.2.2
    (⟨[token.eofTok], [], ⟨token.IDENT, ("x")⟩, ⟨token.SEMICOLON, (";")⟩⟩ : parser.Parser)
    (some (ast.Statement.exprStmt ⟨token.IDENT, ("x")⟩
      (some (ast.Expression.ident ⟨⟨token.IDENT, ("x")⟩, ("x")⟩))))
    (⟨[], [], ⟨token.SEMICOLON, (";")⟩, token.eofTok⟩ : parser.Parser)
    (by rfl)

/-- C10: whenever `expectPeek t` fails (the peek token's kind is not `t`),
it leaves `curToken` and `peekToken` unchanged, consumes no token from the
lexer, and its only effect is appending exactly one error message; the
cursor advances only on the success branch. -/
theorem c10_expectPeek_failure_frame (p : parser.Parser) (t : token.TokenType)
    (h : ¬ p.peekToken.typ = t) :
    parser.expectPeek p t =
      (false,
        (⟨p.rest,
          p.errors ++
            ["expected next token to be " ++ t ++ ", got " ++ p.peekToken.typ ++ " instead"],
          p.curToken, p.peekToken⟩ : parser.Parser)) ∧
      (parser.expectPeek p t).2.errors.length = p.errors.length + 1 := by
  have hb : ¬ parser.peekTokenIs p t = true := by
    simpa [parser.peekTokenIs] using h
  constructor
  · rw [parser.expectPeek_false p t hb]
    rfl
  · rw [parser.expectPeek_false p t hb]
    simp [parser.peekError]

/-- Witness for C10: a concrete failed expectation (peek holds an
identifier while `=` is required) appending exactly one message. -/
theorem c10_expectPeek_failure_frame_witness :
    (¬ (⟨[], [], ⟨token.LET, ("let")⟩, ⟨token.IDENT, ("x")⟩⟩ : parser.Parser).peekToken.typ =
        token.ASSIGN) ∧
      (parser.expectPeek (⟨[], [], ⟨token.LET, ("let")⟩, ⟨token.IDENT, ("x")⟩⟩ : parser.Parser)
          token.ASSIGN =
        (false,
          (⟨(⟨[], [], ⟨token.LET, ("let")⟩, ⟨token.IDENT, ("x")⟩⟩ : parser.Parser).rest,
            (⟨[], [], ⟨token.LET, ("let")⟩, ⟨token.IDENT, ("x")⟩⟩ : parser.Parser).errors ++
              ["expected next token to be " ++ token.ASSIGN ++ ", got " ++
                (⟨[], [], ⟨token.LET, ("let")⟩,
                  ⟨token.IDENT, ("x")⟩⟩ : parser.Parser).peekToken.typ ++ " instead"],
            (⟨[], [], ⟨token.LET, ("let")⟩, ⟨token.IDENT, ("x")⟩⟩ : parser.Parser).curToken,
            (⟨[], [], ⟨token.LET, ("let")⟩,
              ⟨token.IDENT, ("x")⟩⟩ : parser.Parser).peekToken⟩ : parser.Parser)) ∧
        (parser.expectPeek (⟨[], [], ⟨token.LET, ("let")⟩, ⟨token.IDENT, ("x")⟩⟩ : parser.Parser)
            token.ASSIGN).2.errors.length =
          (⟨[], [], ⟨token.LET, ("let")⟩, ⟨token.IDENT, ("x")⟩⟩ : parser.Parser).errors.length +
            1) :=
  ⟨by decide,
    c10_expectPeek_failure_frame
      (⟨[], [], ⟨token.LET, ("let")⟩, ⟨token.IDENT, ("x")⟩⟩ : parser.Parser)
      token.ASSIGN (by decide)⟩
